import Mathlib

/-!
# Formal model of the audio timeline editor

A shallow embedding of the drag-and-reflow audio timeline component:

* `AudioChunkData`, `DragState` — the data model (src/src/components/AudioTimeline/types.ts).
* `chooseTickInterval`, `formatTime`, `rulerTicks`, `rulerWidth` — the time-axis
  model and ruler renderer (src/unnamed/part_000, `TimelineRuler`).
* `onChunkMouseDown`, `handleMouseMove`, `handleMouseUp`, `autoScrollTick` — the
  drag controller (src/src/components/AudioTimeline/useTimelineDrag.ts).
* `runLoadEffect` — the startup duration-loading effect
  (src/src/components/AudioTimeline/AudioTimeline.tsx).

JavaScript numbers are modelled as rationals (`ℚ`); all arithmetic appearing in
the component (sums, products, divisions by nonzero constants, `Math.max`,
`Math.ceil`, `Math.floor`, `%` on nonnegative operands) is exact on the values
involved, so `ℚ` is a faithful carrier.
-/

namespace AudioEditor

/-- A single audio chunk record (types.ts, `AudioChunkData`). -/
structure AudioChunkData where
  id : String
  label : String
  audioUrl : String
  durationSeconds : ℚ
  gapBefore : ℚ
  deriving DecidableEq, Repr

/-- The active drag operation (types.ts, `DragState`). -/
structure DragState where
  chunkId : String
  startMouseX : ℚ
  initialGapBefore : ℚ
  deriving DecidableEq, Repr

/-- Constant from types.ts: `DEFAULT_PIXELS_PER_SECOND = 50`. -/
def DEFAULT_PIXELS_PER_SECOND : ℚ := 50

/-- Constant from types.ts: `MIN_PIXELS_PER_SECOND = 20`. -/
def MIN_PIXELS_PER_SECOND : ℚ := 20

/-- Constant from types.ts: `MAX_PIXELS_PER_SECOND = 150`. -/
def MAX_PIXELS_PER_SECOND : ℚ := 150

/-- Constant from useTimelineDrag.ts: `EDGE_THRESHOLD = 80` (px from the edge that arms auto-scroll). -/
def EDGE_THRESHOLD : ℚ := 80

/-- Constant from useTimelineDrag.ts: `SCROLL_SPEED = 12` (max px per animation frame). -/
def SCROLL_SPEED : ℚ := 12

/-- TimelineRuler: `EXTRA_TICKS = 3` (extra tick intervals shown beyond the content). -/
def EXTRA_TICKS : ℚ := 3

/-- JavaScript `a % b` for the operands used in this component (`a ≥ 0`, `b > 0`),
where it agrees with `a - b * ⌊a / b⌋`. -/
def jsMod (a b : ℚ) : ℚ := a - b * ⌊a / b⌋

/-- JavaScript `String.prototype.padStart(target, pad)` for a single pad character. -/
def jsPadStart (target : ℕ) (pad : Char) (s : String) : String :=
  if target ≤ s.length then s
  else String.mk (List.replicate (target - s.length) pad) ++ s

/-- TimelineRuler `formatTime`: `Math.floor(seconds / 60)` unpadded, `":"`, then
`Math.floor(seconds % 60)` padded with `padStart(2, "0")`. -/
def formatTime (seconds : ℚ) : String :=
  let mins : ℤ := ⌊seconds / 60⌋
  let secs : ℤ := ⌊jsMod seconds 60⌋
  toString mins ++ ":" ++ jsPadStart 2 '0' (toString secs)

/-- TimelineRuler `chooseTickInterval`'s candidate array
`[0.5, 1, 2, 5, 10, 15, 30, 60, 120, 300]`. -/
def candidates : List ℚ := [1/2, 1, 2, 5, 10, 15, 30, 60, 120, 300]

/-- TimelineRuler `chooseTickInterval(pixelsPerSecond, minPixelGap)`: the first
candidate `c` with `c * pixelsPerSecond ≥ minPixelGap`, else the last candidate. -/
def chooseTickIntervalGap (pixelsPerSecond minPixelGap : ℚ) : ℚ :=
  match candidates.find? (fun c => minPixelGap ≤ c * pixelsPerSecond) with
  | some c => c
  | none => candidates.getLastD 0

/-- The function `chooseTickInterval` at its default argument `minPixelGap = 60`, as every
call site in the repository uses it. -/
def chooseTickInterval (pixelsPerSecond : ℚ) : ℚ :=
  chooseTickIntervalGap pixelsPerSecond 60

/-- One ruler tick as produced by `TimelineRuler` (`{ time, px, isMajor }`). -/
structure Tick where
  time : ℚ
  px : ℚ
  isMajor : Bool
  deriving DecidableEq, Repr

/-- TimelineRuler `contentWidth`:
`chunks.reduce((sum, c) => sum + c.gapBefore + c.durationSeconds * pixelsPerSecond, 0)`.
The chunk row below the ruler has this same width (gap spacers of width
`gapBefore` plus chunks of width `durationSeconds * pixelsPerSecond`). -/
def chunkRowWidth (chunks : List AudioChunkData) (pixelsPerSecond : ℚ) : ℚ :=
  chunks.foldl (fun sum c => sum + c.gapBefore + c.durationSeconds * pixelsPerSecond) 0

/-- TimelineRuler `extendedSeconds = contentSeconds + interval * EXTRA_TICKS`
where `contentSeconds = contentWidth / pixelsPerSecond`. -/
def extendedSeconds (chunks : List AudioChunkData) (pixelsPerSecond : ℚ) : ℚ :=
  chunkRowWidth chunks pixelsPerSecond / pixelsPerSecond
    + chooseTickInterval pixelsPerSecond * EXTRA_TICKS

/-- TimelineRuler `rulerWidth = extendedWidth = extendedSeconds * pixelsPerSecond`:
the pixel width actually given to the ruler element. -/
def rulerWidth (chunks : List AudioChunkData) (pixelsPerSecond : ℚ) : ℚ :=
  extendedSeconds chunks pixelsPerSecond * pixelsPerSecond

/-- The tick produced at loop variable `t`:
`{ time: t, px: t * pixelsPerSecond, isMajor: t === 0 || t % (interval * 2) === 0 }`. -/
def mkTick (interval pixelsPerSecond t : ℚ) : Tick :=
  { time := t, px := t * pixelsPerSecond,
    isMajor := t = 0 ∨ jsMod t (interval * 2) = 0 }

/-- TimelineRuler's tick loop `for (let t = 0; t <= extendedSeconds; t += interval)`:
with `interval > 0` the loop visits exactly `t = k * interval` for the natural
numbers `k` with `k * interval ≤ bound`, i.e. `k ≤ ⌊bound / interval⌋`. -/
def tickTimes (interval bound : ℚ) : List ℚ :=
  (List.range (⌊bound / interval⌋ + 1).toNat).map (fun (k : ℕ) => (k : ℚ) * interval)

/-- TimelineRuler's generated tick list for a chunk list and zoom level. -/
def rulerTicks (chunks : List AudioChunkData) (pixelsPerSecond : ℚ) : List Tick :=
  let interval := chooseTickInterval pixelsPerSecond
  (tickTimes interval (extendedSeconds chunks pixelsPerSecond)).map
    (mkTick interval pixelsPerSecond)

/-!
## Drag controller (useTimelineDrag.ts)

The hook's mutable refs and React state are gathered into one record; each
event handler becomes a function from state (plus the event's data) to state.
`rafScheduled` models `scrollRafRef.current !== null` and `listeners` models
whether the document-level `mousemove`/`mouseup` listeners are registered.
-/

/-- The drag controller's state: the chunk list plus the hook's refs/state. -/
structure TimelineState where
  chunks : List AudioChunkData
  drag : Option DragState
  mouseX : ℚ
  scrollLeft : ℚ
  listeners : Bool
  rafScheduled : Bool
  deriving DecidableEq, Repr

/-- JavaScript `Array.prototype.findIndex` (with `-1` rendered as `none`):
the index of the first element satisfying the predicate. -/
def findIndex (f : AudioChunkData → Bool) : List AudioChunkData → Option ℕ
  | [] => none
  | c :: cs => if f c then some 0 else (findIndex f cs).map (· + 1)

/-- useTimelineDrag `onChunkMouseDown`: ignore non-primary buttons, ignore an
unknown chunk id (`findIndex < 0`) and the first chunk (`chunkIndex === 0`);
otherwise record a `DragState` built from `chunks[chunkIndex]`, remember the
mouse position, arm auto-scroll and register the document listeners. -/
def onChunkMouseDown (s : TimelineState) (chunkId : String) (button : ℕ)
    (clientX : ℚ) : TimelineState :=
  if button ≠ 0 then s
  else
    match findIndex (fun c => c.id = chunkId) s.chunks with
    | none => s
    | some 0 => s
    | some (i + 1) =>
        match s.chunks.get? (i + 1) with
        | none => s
        | some chunk =>
            { s with
                drag := some { chunkId := chunkId, startMouseX := clientX,
                               initialGapBefore := chunk.gapBefore },
                mouseX := clientX, listeners := true, rafScheduled := true }

/-- useTimelineDrag `handleMouseMoveRef.current`: no-op when no drag is active;
otherwise remember the mouse position and map over the chunks, giving the
chunk whose id matches the session `max(0, initialGapBefore + deltaX)` as its
new gap and leaving every other chunk untouched. -/
def handleMouseMove (s : TimelineState) (clientX : ℚ) : TimelineState :=
  match s.drag with
  | none => s
  | some drag =>
      let deltaX := clientX - drag.startMouseX
      let newGap := max 0 (drag.initialGapBefore + deltaX)
      { s with mouseX := clientX,
               chunks := s.chunks.map (fun c =>
                 if c.id = drag.chunkId then { c with gapBefore := newGap } else c) }

/-- useTimelineDrag `handleMouseUpRef.current`: clear the session, stop
auto-scroll and remove the document listeners. -/
def handleMouseUp (s : TimelineState) : TimelineState :=
  { s with drag := none, listeners := false, rafScheduled := false }

/-- useTimelineDrag `autoScrollFnRef.current`, one animation-frame tick.
`container` is `some (rect.left, rect.right)` when the scroll container is
mounted and `none` otherwise; the tick returns early when the container is
missing or no drag is active, and otherwise adjusts `scrollLeft` by
`Math.ceil(SCROLL_SPEED * intensity)` toward the near edge. -/
def autoScrollTick (s : TimelineState) (container : Option (ℚ × ℚ)) :
    TimelineState :=
  match container, s.drag with
  | none, _ => s
  | some _, none => s
  | some (rectLeft, rectRight), some _ =>
      let distFromRight := rectRight - s.mouseX
      let distFromLeft := s.mouseX - rectLeft
      if distFromRight < EDGE_THRESHOLD ∧ 0 < distFromRight then
        { s with scrollLeft := s.scrollLeft
            + (⌈SCROLL_SPEED * (1 - distFromRight / EDGE_THRESHOLD)⌉ : ℤ) }
      else if distFromLeft < EDGE_THRESHOLD ∧ 0 < distFromLeft then
        { s with scrollLeft := s.scrollLeft
            - (⌈SCROLL_SPEED * (1 - distFromLeft / EDGE_THRESHOLD)⌉ : ℤ) }
      else s

/-- The per-tick auto-scroll speed (in px) as a function of the pointer's
distance from the viewport edge, as computed inside `autoScrollFnRef.current`:
`Math.ceil(SCROLL_SPEED * (1 - dist / EDGE_THRESHOLD))` when
`0 < dist < EDGE_THRESHOLD`, and no scroll otherwise. -/
def autoScrollSpeed (dist : ℚ) : ℤ :=
  if dist < EDGE_THRESHOLD ∧ 0 < dist then
    ⌈SCROLL_SPEED * (1 - dist / EDGE_THRESHOLD)⌉
  else 0

/-!
## Startup duration loading (AudioTimeline.tsx)
-/

/-- A demo chunk before its duration is resolved
(`Omit<AudioChunkData, "durationSeconds">`). -/
structure DemoChunkData where
  id : String
  label : String
  audioUrl : String
  gapBefore : ℚ
  deriving DecidableEq, Repr

/-- AudioTimeline.tsx `DEMO_CHUNKS` (the `GLOBALS.BASE_URL` prefix is left
abstract as `/base`). -/
def DEMO_CHUNKS : List DemoChunkData :=
  [ { id := "a", label := "Arrow", audioUrl := "/base/sounds/arrow.mp3", gapBefore := 0 },
    { id := "b", label := "Clash Royale", audioUrl := "/base/sounds/clashRoyale.mp3", gapBefore := 0 },
    { id := "c", label := "Goblins", audioUrl := "/base/sounds/goblins.mp3", gapBefore := 0 },
    { id := "d", label := "Mini Pekka", audioUrl := "/base/sounds/miniPekka.mp3", gapBefore := 0 },
    { id := "e", label := "Rocket", audioUrl := "/base/sounds/rocket.mp3", gapBefore := 0 } ]

/-- The spread `{ ...c, durationSeconds: dur }` building a full chunk record. -/
def withDuration (c : DemoChunkData) (dur : ℚ) : AudioChunkData :=
  { id := c.id, label := c.label, audioUrl := c.audioUrl,
    durationSeconds := dur, gapBefore := c.gapBefore }

/-- Semantics of `Promise.all(chunks.map(async c => ({ ...c, durationSeconds: await
loadAudioDuration(c.audioUrl) })))`: succeeds with the resolved list iff every
duration load succeeds, and rejects when any load fails. `fetchDuration`
abstracts `loadAudioDuration`'s outcome per URL. -/
def loadDurations (fetchDuration : String → Except String ℚ) :
    List DemoChunkData → Except String (List AudioChunkData)
  | [] => Except.ok []
  | c :: cs =>
      match fetchDuration c.audioUrl, loadDurations fetchDuration cs with
      | Except.error e, _ => Except.error e
      | Except.ok _, Except.error e => Except.error e
      | Except.ok d, Except.ok rest => Except.ok (withDuration c d :: rest)

/-- Outcome of the mount effect: the chunk list written by `setChunks` (if
any) and how many times `setLoading(false)` ran. -/
structure LoadEffectResult where
  chunksSet : Option (List AudioChunkData)
  setLoadingFalseCount : ℕ
  deriving DecidableEq, Repr

/-- The duration-loading `useEffect` body of AudioTimeline.tsx: on success
(and not cancelled) publish the loaded chunks and leave the loading state; on
any failure, log and publish every demo chunk with the fallback duration `5`,
again leaving the loading state; a cancelled effect publishes nothing. -/
def runLoadEffect (fetchDuration : String → Except String ℚ)
    (cancelled : Bool) : LoadEffectResult :=
  match loadDurations fetchDuration DEMO_CHUNKS with
  | Except.ok loaded =>
      if cancelled then { chunksSet := none, setLoadingFalseCount := 0 }
      else { chunksSet := some loaded, setLoadingFalseCount := 1 }
  | Except.error _ =>
      if cancelled then { chunksSet := none, setLoadingFalseCount := 0 }
      else { chunksSet := some (DEMO_CHUNKS.map (fun c => withDuration c 5)),
             setLoadingFalseCount := 1 }

/-!
## Reachable states of the timeline

The component's events, starting from either load outcome. Zoom changes touch
only `pixelsPerSecond`, which is not part of `TimelineState`, so they are
identity on this state and are omitted.
-/

/-- The events delivered to the drag controller. -/
inductive Event where
  | mouseDown (chunkId : String) (button : ℕ) (clientX : ℚ)
  | mouseMove (clientX : ℚ)
  | mouseUp
  | tick (container : Option (ℚ × ℚ))

/-- One event-dispatch step. -/
def step (s : TimelineState) : Event → TimelineState
  | Event.mouseDown chunkId button clientX => onChunkMouseDown s chunkId button clientX
  | Event.mouseMove clientX => handleMouseMove s clientX
  | Event.mouseUp => handleMouseUp s
  | Event.tick container => autoScrollTick s container

/-- The component's state right after the mount effect publishes chunks:
`chunks` is whatever `runLoadEffect` set, no drag, no listeners. -/
def initState (chunks : List AudioChunkData) : TimelineState :=
  { chunks := chunks, drag := none, mouseX := 0, scrollLeft := 0,
    listeners := false, rafScheduled := false }

/-- States reachable from either load outcome by event dispatch. -/
inductive Reachable : TimelineState → Prop where
  | init (fetchDuration : String → Except String ℚ) (chunks : List AudioChunkData)
      (h : (runLoadEffect fetchDuration false).chunksSet = some chunks) :
      Reachable (initState chunks)
  | step (s : TimelineState) (e : Event) (h : Reachable s) : Reachable (step s e)

/-!
## Shared helper lemmas
-/

/-- Helper: `List.find?` on a list sorted by `≤` returns a least satisfying element. -/
theorem find?_min_of_sorted {l : List ℚ} {f : ℚ → Bool} {x : ℚ}
    (hsort : l.Pairwise (· ≤ ·)) (hfind : l.find? f = some x) :
    ∀ c ∈ l, f c = true → x ≤ c := by
  induction l with
  | nil => simp at hfind
  | cons a as ih =>
    rw [List.find?_cons] at hfind
    rcases List.pairwise_cons.mp hsort with ⟨hle, hsort2⟩
    intro c hc hfc
    rcases List.mem_cons.mp hc with rfl | hc2
    · split at hfind
      · cases hfind; exact le_refl _
      · rename_i hfa; rw [hfc] at hfa; simp at hfa
    · split at hfind
      · cases hfind; exact hle c hc2
      · exact ih hsort2 hfind c hc2 hfc

/-- Every candidate tick interval is positive. -/
theorem candidates_pos : ∀ c ∈ candidates, (0 : ℚ) < c := by
  intro c hc
  fin_cases hc <;> norm_num

/-- The candidate list is sorted in ascending order. -/
theorem candidates_sorted : candidates.Pairwise (· ≤ ·) := by
  norm_num [candidates, List.pairwise_cons]

/-- The function `chooseTickInterval` always returns one of the candidates. -/
theorem chooseTickInterval_mem (p : ℚ) : chooseTickInterval p ∈ candidates := by
  unfold chooseTickInterval chooseTickIntervalGap
  cases hfind : candidates.find? (fun c => decide (60 ≤ c * p)) with
  | none => simp [candidates]
  | some c => simpa using List.mem_of_find?_eq_some hfind

/-- The function `chooseTickInterval` is positive. -/
theorem chooseTickInterval_pos (p : ℚ) : 0 < chooseTickInterval p :=
  candidates_pos _ (chooseTickInterval_mem p)

/-- The function `chooseTickInterval` at the default zoom level 50 evaluates to 2. -/
theorem chooseTickInterval_fifty : chooseTickInterval 50 = 2 := by
  norm_num [chooseTickInterval, chooseTickIntervalGap, candidates, List.find?]

/-!
## Claims
-/

/-- Claim C6: For every `p > 0` (with the default `minPixelGap = 60`),
`chooseTickInterval p` is the smallest element of the ascending candidate set
with `c * p ≥ 60` when one exists, is the largest candidate (300) when none
qualifies, and in particular `chooseTickInterval 50 = 2`. -/
theorem chooseTickInterval_smallest (p : ℚ) (hp : 0 < p) :
    ((∃ c ∈ candidates, 60 ≤ c * p) →
      chooseTickInterval p ∈ candidates ∧ 60 ≤ chooseTickInterval p * p ∧
      ∀ c ∈ candidates, 60 ≤ c * p → chooseTickInterval p ≤ c) ∧
    ((∀ c ∈ candidates, ¬ (60 ≤ c * p)) → chooseTickInterval p = 300) ∧
    chooseTickInterval 50 = 2 := by
  refine ⟨?_, ?_, chooseTickInterval_fifty⟩
  · rintro ⟨c, hc, hcp⟩
    cases hfind : candidates.find? (fun c => decide (60 ≤ c * p)) with
    | none =>
        have := List.find?_eq_none.mp hfind c hc
        simp only [decide_eq_true_eq] at this
        exact absurd hcp this
    | some x =>
        have hx : chooseTickInterval p = x := by
          unfold chooseTickInterval chooseTickIntervalGap
          rw [hfind]
        have hxprop : 60 ≤ x * p := by
          have := List.find?_some hfind
          simpa using this
        refine ⟨hx ▸ chooseTickInterval_mem p, hx ▸ hxprop, ?_⟩
        intro d hd hdp
        rw [hx]
        exact find?_min_of_sorted candidates_sorted hfind d hd (by simpa using hdp)
  · intro hnone
    have hfind : candidates.find? (fun c => decide (60 ≤ c * p)) = none := by
      rw [List.find?_eq_none]
      intro c hc
      simpa using hnone c hc
    unfold chooseTickInterval chooseTickIntervalGap
    rw [hfind]
    rfl

/-- Witness for C6: At the concrete zoom level `p = 50`, a qualifying candidate
exists and `chooseTickInterval 50 = 2`. -/
theorem chooseTickInterval_smallest_witness : chooseTickInterval 50 = 2 :=
  (chooseTickInterval_smallest 50 (by norm_num)).2.2

/-- The spec's reading of `formatTimestamp` on a whole number of seconds:
minutes `n / 60` unpadded, then `":"`, then seconds `n % 60` zero-padded to
two digits. -/
def formatTimeSpecNat (n : ℕ) : String :=
  toString (n / 60) ++ ":" ++ jsPadStart 2 '0' (toString (n % 60))

/-- Claim C8: For every `seconds ≥ 0`, `formatTime` renders minutes
`⌊seconds⌋ / 60` unpadded, a colon, and `⌊seconds⌋ mod 60` zero-padded to two
digits — truncating (not rounding) the sub-second remainder — and the spec's
concrete examples `0 → "0:00"`, `59 → "0:59"`, `60 → "1:00"`, `125 → "2:05"`,
`125.9 → "2:05"` hold. -/
theorem formatTime_spec :
    (∀ s : ℚ, 0 ≤ s → formatTime s = formatTimeSpecNat ⌊s⌋.toNat) ∧
    formatTime 0 = "0:00" ∧ formatTime 59 = "0:59" ∧ formatTime 60 = "1:00" ∧
    formatTime 125 = "2:05" ∧ formatTime (1259 / 10 : ℚ) = "2:05" := by
  have main : ∀ s : ℚ, 0 ≤ s → formatTime s = formatTimeSpecNat ⌊s⌋.toNat := by
    intro s hs
    have hfl : (0 : ℤ) ≤ ⌊s⌋ := Int.floor_nonneg.mpr hs
    have hsn : ⌊s⌋ = ((⌊s⌋.toNat : ℕ) : ℤ) := (Int.toNat_of_nonneg hfl).symm
    have hNfl : ⌊s⌋.toNat = ⌊s⌋₊ := Int.floor_toNat s
    have hdivN : ⌊s / 60⌋₊ = ⌊s⌋.toNat / 60 := by
      rw [hNfl]
      have h := Nat.floor_div_nat s 60
      norm_num at h
      exact h
    have hdiv : ⌊s / 60⌋ = ((⌊s⌋.toNat / 60 : ℕ) : ℤ) := by
      rw [← hdivN, ← Int.natCast_floor_eq_floor (div_nonneg hs (by norm_num))]
    have hmod : ⌊jsMod s 60⌋ = ((⌊s⌋.toNat % 60 : ℕ) : ℤ) := by
      have h1 : (60 : ℚ) * (⌊s / 60⌋ : ℤ) = ((60 * ⌊s / 60⌋ : ℤ) : ℚ) := by
        push_cast
        ring
      have h2 : ⌊jsMod s 60⌋ = ⌊s⌋ - 60 * ⌊s / 60⌋ := by
        rw [jsMod, h1, Int.floor_sub_int]
      rw [h2, hsn, hdiv]
      omega
    show toString (⌊s / 60⌋ : ℤ) ++ ":" ++ jsPadStart 2 '0' (toString (⌊jsMod s 60⌋ : ℤ))
        = formatTimeSpecNat ⌊s⌋.toNat
    rw [hdiv, hmod]
    rfl
  have ex : ∀ (q : ℚ) (m : ℕ), 0 ≤ q → ⌊q⌋ = (m : ℤ) →
      formatTime q = formatTimeSpecNat m := by
    intro q m hq hfloor
    rw [main q hq, hfloor]
    simp
  refine ⟨main, ?_, ?_, ?_, ?_, ?_⟩
  · rw [ex 0 0 (by norm_num) (by norm_num)]; rfl
  · rw [ex 59 59 (by norm_num) (by norm_num)]; rfl
  · rw [ex 60 60 (by norm_num) (by norm_num)]; rfl
  · rw [ex 125 125 (by norm_num) (by norm_num)]; rfl
  · rw [ex (1259 / 10) 125 (by norm_num) (by rw [Int.floor_eq_iff]; norm_num)]; rfl

/-- Witness for C8: The general part of `formatTime_spec` applied at the
concrete nonnegative input `125.9`. -/
theorem formatTime_spec_witness :
    formatTime (1259 / 10 : ℚ) = formatTimeSpecNat ⌊(1259 / 10 : ℚ)⌋.toNat :=
  formatTime_spec.1 (1259 / 10) (by norm_num)

/-- The demo chunk list with every duration resolved to 2.0 seconds. -/
def demoLoaded : List AudioChunkData := DEMO_CHUNKS.map (fun c => withDuration c 2)

/-- The demo chunk list with the fallback duration 5 assigned to every chunk. -/
def fallbackChunks : List AudioChunkData := DEMO_CHUNKS.map (fun c => withDuration c 5)

/-- Counterexample for C1: For the five demo chunks with duration 2.0 s each
and zero gaps at `pixelsPerSecond = 50` (inside [20,150]), the chunk-row width
is 500 px but the rendered ruler width is 800 px: the two widths are not
equal, contradicting the claimed invariant. -/
theorem rulerWidth_ne_chunkRowWidth :
    chunkRowWidth demoLoaded 50 = 500 ∧ rulerWidth demoLoaded 50 = 800 ∧
    rulerWidth demoLoaded 50 ≠ chunkRowWidth demoLoaded 50 := by
  have h1 : chunkRowWidth demoLoaded 50 = 500 := by
    norm_num [chunkRowWidth, demoLoaded, DEMO_CHUNKS, withDuration, List.foldl]
  have h2 : rulerWidth demoLoaded 50 = 800 := by
    rw [rulerWidth, extendedSeconds, h1, chooseTickInterval_fifty, EXTRA_TICKS]
    norm_num
  refine ⟨h1, h2, ?_⟩
  rw [h1, h2]
  norm_num

/-- Amended claim C1: For every chunk sequence and every `pixelsPerSecond` in
[20,150], the total ruler width equals the total chunk-row width **plus the
3-interval overhang** `3 × chooseTickInterval(pixelsPerSecond) ×
pixelsPerSecond`; the two widths therefore never coincide, but differ by
exactly the overhang. -/
theorem rulerWidth_eq_chunkRowWidth_add_overhang (chunks : List AudioChunkData)
    (p : ℚ) (hmin : MIN_PIXELS_PER_SECOND ≤ p) (hmax : p ≤ MAX_PIXELS_PER_SECOND) :
    rulerWidth chunks p =
      chunkRowWidth chunks p + chooseTickInterval p * EXTRA_TICKS * p := by
  have hp : p ≠ 0 := by
    have h20 : (20 : ℚ) ≤ p := by simpa [MIN_PIXELS_PER_SECOND] using hmin
    intro h0
    rw [h0] at h20
    norm_num at h20
  rw [rulerWidth, extendedSeconds, add_mul, div_mul_cancel₀ _ hp]

/-- Witness for the amended claim C1: The amended width identity at the concrete demo
configuration (`pixelsPerSecond = 50`). -/
theorem rulerWidth_eq_chunkRowWidth_add_overhang_witness :
    rulerWidth demoLoaded 50 =
      chunkRowWidth demoLoaded 50 + chooseTickInterval 50 * EXTRA_TICKS * 50 :=
  rulerWidth_eq_chunkRowWidth_add_overhang demoLoaded 50
    (by norm_num [MIN_PIXELS_PER_SECOND]) (by norm_num [MAX_PIXELS_PER_SECOND])

/-- Claim C10: When no drag session is active, a mouse-move changes nothing
(chunks, drag state, scroll position are all untouched) and an auto-scroll
tick likewise leaves the whole state — in particular the scroll position —
unchanged. -/
theorem idle_events_are_noops (s : TimelineState) (h : s.drag = none)
    (x : ℚ) (container : Option (ℚ × ℚ)) :
    handleMouseMove s x = s ∧ autoScrollTick s container = s := by
  constructor
  · simp [handleMouseMove, h]
  · cases container with
    | none => simp [autoScrollTick]
    | some r => simp [autoScrollTick, h]

/-- Witness for C10: The idle no-op property at a concrete idle state. -/
theorem idle_events_are_noops_witness :
    handleMouseMove (initState fallbackChunks) 37 = initState fallbackChunks ∧
      autoScrollTick (initState fallbackChunks) (some (0, 400)) =
        initState fallbackChunks :=
  idle_events_are_noops (initState fallbackChunks) rfl 37 (some (0, 400))

/-- Helper: `findIndex` misses when no element satisfies the predicate
(JS `findIndex` returns `-1`). -/
theorem findIndex_eq_none {f : AudioChunkData → Bool} {l : List AudioChunkData}
    (h : ∀ c ∈ l, f c = false) : findIndex f l = none := by
  induction l with
  | nil => rfl
  | cons a t ih =>
      have ha : f a = false := h a (List.mem_cons_self a t)
      have ht : findIndex f t = none := ih (fun c hc => h c (List.mem_cons_of_mem a hc))
      simp [findIndex, ha, ht]

/-- Claim C4: A pointer-down on the first chunk, or with a chunk id not present
in the sequence, is silently ignored: the whole controller state (drag
session, listeners, auto-scroll arming) is returned unchanged. -/
theorem invalid_drag_target_ignored (s : TimelineState) (chunkId : String)
    (button : ℕ) (x : ℚ) :
    (∀ c0, s.chunks.head? = some c0 → chunkId = c0.id →
        onChunkMouseDown s chunkId button x = s) ∧
    ((∀ c ∈ s.chunks, c.id ≠ chunkId) →
        onChunkMouseDown s chunkId button x = s) := by
  constructor
  · intro c0 hhead hid
    by_cases hb : button = 0
    · cases hl : s.chunks with
      | nil => rw [hl] at hhead; simp at hhead
      | cons a t =>
          have ha : a = c0 := by rw [hl] at hhead; simpa using hhead
          have hfa : (decide (a.id = chunkId)) = true := by
            rw [ha, hid]
            simp
          simp [onChunkMouseDown, hb, hl, findIndex, hfa]
    · simp [onChunkMouseDown, hb]
  · intro hne
    have hnone : findIndex (fun c => c.id = chunkId) s.chunks = none :=
      findIndex_eq_none (fun c hc => by simpa using hne c hc)
    by_cases hb : button = 0
    · simp [onChunkMouseDown, hb, hnone]
    · simp [onChunkMouseDown, hb]

/-- Witness for C4: A primary-button pointer-down on the first demo chunk
(`"a"`) leaves the concrete idle state unchanged. -/
theorem invalid_drag_target_ignored_witness :
    onChunkMouseDown (initState fallbackChunks) "a" 0 100 = initState fallbackChunks :=
  (invalid_drag_target_ignored (initState fallbackChunks) "a" 0 100).1
    (withDuration { id := "a", label := "Arrow",
                    audioUrl := "/base/sounds/arrow.mp3", gapBefore := 0 } 5)
    rfl rfl

/-- Claim C2: During an active drag session, every pointer-move at pointer
position `x` keeps the chunk list's length and order, sets the dragged
chunk's `gapBefore` to `max 0 (initialGapBefore + (x - startMouseX))` while
leaving its other fields intact, and leaves every other chunk's stored record
completely unchanged (and the session itself survives the move). -/
theorem mouseMove_updates_only_dragged_gap (s : TimelineState) (drag : DragState)
    (hdrag : s.drag = some drag) (x : ℚ) :
    (handleMouseMove s x).chunks.length = s.chunks.length ∧
    (handleMouseMove s x).drag = some drag ∧
    List.Forall₂ (fun c c2 : AudioChunkData =>
        if c.id = drag.chunkId
        then c2 = { c with
          gapBefore := max 0 (drag.initialGapBefore + (x - drag.startMouseX)) }
        else c2 = c)
      s.chunks (handleMouseMove s x).chunks := by
  have hchunks : (handleMouseMove s x).chunks = s.chunks.map (fun c =>
      if c.id = drag.chunkId
      then { c with
        gapBefore := max 0 (drag.initialGapBefore + (x - drag.startMouseX)) }
      else c) := by
    simp [handleMouseMove, hdrag]
  refine ⟨by rw [hchunks]; simp, by simp [handleMouseMove, hdrag], ?_⟩
  rw [hchunks, List.forall₂_map_right_iff, List.forall₂_same]
  intro c hc
  by_cases hid : c.id = drag.chunkId <;> simp [hid]

/-- A concrete mid-drag session on the second demo chunk `"b"`. -/
def dragDemo : DragState :=
  { chunkId := "b", startMouseX := 100, initialGapBefore := 0 }

/-- A concrete mid-drag controller state: the loaded demo chunks with the
session `dragDemo` active and the pointer at x = 100. -/
def dragDemoState : TimelineState :=
  { chunks := demoLoaded, drag := some dragDemo, mouseX := 100,
    scrollLeft := 0, listeners := true, rafScheduled := true }

/-- Witness for C2: The pointer-move frame property at the concrete mid-drag
state, moved to x = 140. -/
theorem mouseMove_updates_only_dragged_gap_witness :
    (handleMouseMove dragDemoState 140).chunks.length =
      dragDemoState.chunks.length :=
  (mouseMove_updates_only_dragged_gap dragDemoState dragDemo rfl 140).1

/-- An auto-scroll tick that finds the pointer inside neither edge zone
leaves the state unchanged. -/
theorem autoScrollTick_no_edge (s : TimelineState) (l r : ℚ) (d : DragState)
    (hdrag : s.drag = some d)
    (hr : ¬(r - s.mouseX < EDGE_THRESHOLD ∧ 0 < r - s.mouseX))
    (hl : ¬(s.mouseX - l < EDGE_THRESHOLD ∧ 0 < s.mouseX - l)) :
    autoScrollTick s (some (l, r)) = s := by
  unfold autoScrollTick
  rw [hdrag]
  change ite _ _ _ = s
  rw [if_neg hr, if_neg hl]

/-- Counterexample for C3: At distance 0 from the viewport edge the code does
not scroll at all — the speed is 0, not the claimed 12 px/tick — and the
speed is not strictly decreasing on (0, 80): distances 1 and 2 both give
12 px/tick. A full auto-scroll tick of the concrete mid-drag state with the
pointer exactly on the right edge leaves the state (so `scrollLeft`)
unchanged. -/
theorem autoScroll_edge_cex :
    autoScrollSpeed 0 = 0 ∧ autoScrollSpeed 0 ≠ 12 ∧
    autoScrollSpeed 1 = 12 ∧ autoScrollSpeed 2 = 12 ∧
    autoScrollTick dragDemoState (some (0, 100)) = dragDemoState := by
  have h0 : autoScrollSpeed 0 = 0 := by
    norm_num [autoScrollSpeed]
  have h1 : autoScrollSpeed 1 = 12 := by
    rw [autoScrollSpeed, if_pos (by constructor <;> norm_num [EDGE_THRESHOLD])]
    rw [EDGE_THRESHOLD, SCROLL_SPEED, Int.ceil_eq_iff] <;> norm_num
  have h2 : autoScrollSpeed 2 = 12 := by
    rw [autoScrollSpeed, if_pos (by constructor <;> norm_num [EDGE_THRESHOLD])]
    rw [EDGE_THRESHOLD, SCROLL_SPEED, Int.ceil_eq_iff] <;> norm_num
  refine ⟨h0, by rw [h0]; norm_num, h1, h2, ?_⟩
  apply autoScrollTick_no_edge dragDemoState 0 100 dragDemo rfl
  · norm_num [dragDemoState, EDGE_THRESHOLD]
  · norm_num [dragDemoState, EDGE_THRESHOLD]

/-- Amended claim C3: While a drag is active, the per-tick auto-scroll speed at
distance `d` from a viewport edge is `ceil(12 × (1 − d/80))` for `0 < d < 80`
and 0 otherwise — in particular it is 0 (not 12) at distance 0 and at
distances ≥ 80, it never exceeds 12, it is weakly (not strictly) decreasing
on (0, 80), and it attains the maximum 12 exactly on the sub-range
`0 < d < 20/3`. -/
theorem autoScrollSpeed_correct :
    (∀ d : ℚ, 0 < d → d < 80 → autoScrollSpeed d = ⌈(12 : ℚ) * (1 - d / 80)⌉) ∧
    (∀ d : ℚ, d ≤ 0 ∨ 80 ≤ d → autoScrollSpeed d = 0) ∧
    (∀ d : ℚ, autoScrollSpeed d ≤ 12) ∧
    (∀ e d : ℚ, 0 < e → e ≤ d → d < 80 → autoScrollSpeed d ≤ autoScrollSpeed e) ∧
    (∀ d : ℚ, 0 < d → d < 20 / 3 → autoScrollSpeed d = 12) := by
  have hin : ∀ d : ℚ, 0 < d → d < 80 →
      autoScrollSpeed d = ⌈(12 : ℚ) * (1 - d / 80)⌉ := by
    intro d h1 h2
    rw [autoScrollSpeed, EDGE_THRESHOLD, SCROLL_SPEED, if_pos ⟨h2, h1⟩]
  have hout : ∀ d : ℚ, d ≤ 0 ∨ 80 ≤ d → autoScrollSpeed d = 0 := by
    intro d h
    rw [autoScrollSpeed, EDGE_THRESHOLD, SCROLL_SPEED, if_neg]
    rintro ⟨hlt, hpos⟩
    rcases h with h | h
    · exact absurd hpos (not_lt.mpr h)
    · exact absurd hlt (not_lt.mpr h)
  refine ⟨hin, hout, ?_, ?_, ?_⟩
  · intro d
    by_cases h1 : 0 < d
    · by_cases h2 : d < 80
      · rw [hin d h1 h2]
        rw [Int.ceil_le]
        push_cast
        nlinarith
      · rw [hout d (Or.inr (not_lt.mp h2))]
        norm_num
    · rw [hout d (Or.inl (not_lt.mp h1))]
      norm_num
  · intro e d he hed hd
    rw [hin e he (lt_of_le_of_lt hed hd), hin d (lt_of_lt_of_le he hed) hd]
    apply Int.ceil_le_ceil
    have : d / 80 ≥ e / 80 := by linarith
    nlinarith
  · intro d h1 h2
    rw [hin d h1 (by linarith)]
    rw [Int.ceil_eq_iff]
    constructor
    · push_cast
      nlinarith
    · push_cast
      nlinarith

/-- Witness for the amended claim C3: The corrected speed law at concrete distances:
40 px from the edge gives the ramp value, 100 px gives 0, 3 px gives the
maximum 12. -/
theorem autoScrollSpeed_correct_witness :
    autoScrollSpeed 40 = ⌈(12 : ℚ) * (1 - 40 / 80)⌉ ∧
      autoScrollSpeed 100 = 0 ∧ autoScrollSpeed 3 = 12 :=
  ⟨autoScrollSpeed_correct.1 40 (by norm_num) (by norm_num),
   autoScrollSpeed_correct.2.1 100 (Or.inr (by norm_num)),
   autoScrollSpeed_correct.2.2.2.2 3 (by norm_num) (by norm_num)⟩

/-- The tick loop visits exactly the multiples `k * interval` (k ∈ ℕ) that do
not exceed the bound, the bound itself included when it is a multiple. -/
theorem tickTimes_mem (i b : ℚ) (hi : 0 < i) (t : ℚ) :
    t ∈ tickTimes i b ↔ ∃ k : ℕ, t = (k : ℚ) * i ∧ t ≤ b := by
  have hiff : ∀ k : ℕ, k < (⌊b / i⌋ + 1).toNat ↔ (k : ℚ) * i ≤ b := by
    intro k
    rw [Int.lt_toNat]
    constructor
    · intro h1
      have h2 : (k : ℤ) ≤ ⌊b / i⌋ := by omega
      have h3 : (k : ℚ) ≤ b / i := by exact_mod_cast Int.le_floor.mp h2
      calc (k : ℚ) * i ≤ b / i * i := mul_le_mul_of_nonneg_right h3 (le_of_lt hi)
        _ = b := div_mul_cancel₀ b (ne_of_gt hi)
    · intro h1
      have h3 : (k : ℚ) ≤ b / i := (le_div_iff hi).mpr h1
      have h2 : (k : ℤ) ≤ ⌊b / i⌋ := Int.le_floor.mpr (by exact_mod_cast h3)
      omega
  constructor
  · intro ht
    simp only [tickTimes, List.mem_map, List.mem_range] at ht
    rcases ht with ⟨k, hk, rfl⟩
    exact ⟨k, rfl, (hiff k).mp hk⟩
  · rintro ⟨k, rfl, hle⟩
    simp only [tickTimes, List.mem_map, List.mem_range]
    exact ⟨k, (hiff k).mpr hle, rfl⟩

/-- Claim C7: Tick generation produces exactly the ticks `t = k × interval`
(k ∈ ℕ) with `t ≤ contentSeconds + 3 × interval` (the bound included when it
is itself a multiple), each positioned at pixel `t × pixelsPerSecond` and
major exactly when `t = 0` or `t mod (2 × interval) = 0`; for the five demo
chunks of 2.0 s each with zero gaps at `pixelsPerSecond = 50`, the ticks fall
at 0, 2, …, 16 seconds, i.e. at pixels 0, 100, …, 800. -/
theorem rulerTicks_correct (chunks : List AudioChunkData) (p : ℚ) (hp : 0 < p) :
    (∀ t : ℚ, (∃ tk ∈ rulerTicks chunks p, tk.time = t) ↔
        (∃ k : ℕ, t = (k : ℚ) * chooseTickInterval p ∧
          t ≤ extendedSeconds chunks p)) ∧
    (∀ tk ∈ rulerTicks chunks p,
        tk.px = tk.time * p ∧
        (tk.isMajor = true ↔
          (tk.time = 0 ∨ jsMod tk.time (chooseTickInterval p * 2) = 0))) ∧
    (rulerTicks demoLoaded 50).map Tick.time = [0, 2, 4, 6, 8, 10, 12, 14, 16] ∧
    (rulerTicks demoLoaded 50).map Tick.px =
      [0, 100, 200, 300, 400, 500, 600, 700, 800] := by
  have hmem := tickTimes_mem (chooseTickInterval p) (extendedSeconds chunks p)
    (chooseTickInterval_pos p)
  have hext : extendedSeconds demoLoaded 50 = 16 := by
    have h500 : chunkRowWidth demoLoaded 50 = 500 := by
      norm_num [chunkRowWidth, demoLoaded, DEMO_CHUNKS, withDuration, List.foldl]
    rw [extendedSeconds, h500, chooseTickInterval_fifty, EXTRA_TICKS]
    norm_num
  have hticks : rulerTicks demoLoaded 50 = (tickTimes 2 16).map (mkTick 2 50) := by
    show (tickTimes (chooseTickInterval 50) (extendedSeconds demoLoaded 50)).map
        (mkTick (chooseTickInterval 50) 50) = _
    rw [chooseTickInterval_fifty, hext]
  have htt : tickTimes 2 16 = [0, 2, 4, 6, 8, 10, 12, 14, 16] := by
    have hfl : (⌊(16 : ℚ) / 2⌋ + 1).toNat = 9 := by
      have h8 : ⌊(16 : ℚ) / 2⌋ = 8 := by norm_num
      rw [h8]
      rfl
    rw [tickTimes, hfl]
    norm_num [List.range_succ]
  refine ⟨?_, ?_, ?_, ?_⟩
  · intro t
    rw [← hmem t]
    constructor
    · rintro ⟨tk, htk, rfl⟩
      simp only [rulerTicks, List.mem_map] at htk
      rcases htk with ⟨u, hu, rfl⟩
      exact hu
    · intro ht
      refine ⟨mkTick (chooseTickInterval p) p t, ?_, rfl⟩
      simp only [rulerTicks, List.mem_map]
      exact ⟨t, ht, rfl⟩
  · intro tk htk
    simp only [rulerTicks, List.mem_map] at htk
    rcases htk with ⟨u, hu, rfl⟩
    exact ⟨rfl, by simp [mkTick]⟩
  · rw [hticks, htt]
    norm_num [mkTick]
  · rw [hticks, htt]
    norm_num [mkTick]

/-- Witness for C7: The concrete demo-scenario part of `rulerTicks_correct`:
tick times 0, 2, …, 16 at `pixelsPerSecond = 50`. -/
theorem rulerTicks_correct_witness :
    (rulerTicks demoLoaded 50).map Tick.time = [0, 2, 4, 6, 8, 10, 12, 14, 16] :=
  (rulerTicks_correct demoLoaded 50 (by norm_num)).2.2.1

/-- A successful batch load resolves every chunk: each input demo chunk is
paired with an output chunk built by `withDuration` from its fetched
duration. -/
theorem loadDurations_ok_forall₂ (f : String → Except String ℚ) :
    ∀ (l : List DemoChunkData) (out : List AudioChunkData),
      loadDurations f l = Except.ok out →
      List.Forall₂ (fun c a => ∃ d, f c.audioUrl = Except.ok d ∧
        a = withDuration c d) l out := by
  intro l
  induction l with
  | nil =>
      intro out h
      unfold loadDurations at h
      cases h
      exact List.Forall₂.nil
  | cons a t ih =>
      intro out h
      unfold loadDurations at h
      cases hfa : f a.audioUrl with
      | error e => rw [hfa] at h; cases h
      | ok d =>
          rw [hfa] at h
          cases hrest : loadDurations f t with
          | error e => rw [hrest] at h; cases h
          | ok rest =>
              rw [hrest] at h
              cases h
              exact List.Forall₂.cons ⟨d, hfa, rfl⟩ (ih rest hrest)

/-- Project a `Forall₂` relation at a member of the left list. -/
theorem forall₂_exists_right {α β : Type} {r : α → β → Prop} :
    ∀ {l : List α} {l2 : List β}, List.Forall₂ r l l2 →
      ∀ a ∈ l, ∃ b ∈ l2, r a b := by
  intro l l2 h
  induction h with
  | nil =>
      intro a ha
      simp at ha
  | cons hr ht ih =>
      intro a ha
      rcases List.mem_cons.mp ha with rfl | ha2
      · exact ⟨_, List.mem_cons_self _ _, hr⟩
      · rcases ih a ha2 with ⟨b, hb, hrb⟩
        exact ⟨b, List.mem_cons_of_mem _ hb, hrb⟩

/-- Claim C9: If any single duration load in the startup batch fails then (with
the component still mounted) the effect publishes the uniform fallback list —
every chunk gets the identical duration 5 while its other fields are kept —
and `setLoading(false)` runs exactly once; the failure is caught, so the
effect still produces a result rather than an error. -/
theorem load_failure_uniform_fallback (f : String → Except String ℚ)
    (c : DemoChunkData) (hc : c ∈ DEMO_CHUNKS) (e : String)
    (he : f c.audioUrl = Except.error e) :
    (runLoadEffect f false).chunksSet = some fallbackChunks ∧
    (∀ a ∈ fallbackChunks, a.durationSeconds = 5) ∧
    List.Forall₂ (fun (dc : DemoChunkData) (a : AudioChunkData) =>
        a.id = dc.id ∧ a.label = dc.label ∧ a.audioUrl = dc.audioUrl ∧
        a.gapBefore = dc.gapBefore ∧ a.durationSeconds = 5)
      DEMO_CHUNKS fallbackChunks ∧
    (runLoadEffect f false).setLoadingFalseCount = 1 := by
  cases hload : loadDurations f DEMO_CHUNKS with
  | ok out =>
      have hall := loadDurations_ok_forall₂ f DEMO_CHUNKS out hload
      rcases forall₂_exists_right hall c hc with ⟨b, _, d, hd, _⟩
      rw [hd] at he
      cases he
  | error e2 =>
      have heff : runLoadEffect f false =
          { chunksSet := some (DEMO_CHUNKS.map (fun c => withDuration c 5)),
            setLoadingFalseCount := 1 } := by
        unfold runLoadEffect
        rw [hload]
        rfl
      refine ⟨by rw [heff]; rfl, ?_, ?_, by rw [heff]⟩
      · intro a ha
        simp only [fallbackChunks, List.mem_map] at ha
        rcases ha with ⟨dc, _, rfl⟩
        rfl
      · rw [fallbackChunks, List.forall₂_map_right_iff, List.forall₂_same]
        intro dc _
        exact ⟨rfl, rfl, rfl, rfl, rfl⟩

/-- Witness for C9: With every duration fetch failing, the mounted effect
publishes the fallback list and leaves the loading state once. -/
theorem load_failure_uniform_fallback_witness :
    (runLoadEffect (fun _ => Except.error "network") false).chunksSet =
        some fallbackChunks ∧
      (∀ a ∈ fallbackChunks, a.durationSeconds = 5) ∧
      List.Forall₂ (fun (dc : DemoChunkData) (a : AudioChunkData) =>
          a.id = dc.id ∧ a.label = dc.label ∧ a.audioUrl = dc.audioUrl ∧
          a.gapBefore = dc.gapBefore ∧ a.durationSeconds = 5)
        DEMO_CHUNKS fallbackChunks ∧
      (runLoadEffect (fun _ => Except.error "network") false).setLoadingFalseCount
        = 1 :=
  load_failure_uniform_fallback (fun _ => Except.error "network")
    ⟨"a", "Arrow", "/base/sounds/arrow.mp3", 0⟩
    (by unfold DEMO_CHUNKS; exact List.mem_cons_self _ _) "network" rfl

/-!
## The first-gap invariant (C5)
-/

/-- The inductive invariant: the first chunk carries no leading gap, and any
active drag session targets an id different from the first chunk's. -/
def FirstGapInv (s : TimelineState) : Prop :=
  (∀ c0, s.chunks.head? = some c0 → c0.gapBefore = 0) ∧
  (∀ d, s.drag = some d → ∀ c0, s.chunks.head? = some c0 → c0.id ≠ d.chunkId)

/-- A drag can only start with an id the head chunk does not match: when
`findIndex` returns an index ≥ 1, the head fails the predicate. -/
theorem findIndex_succ_head {f : AudioChunkData → Bool}
    {l : List AudioChunkData} {i : ℕ} (h : findIndex f l = some (i + 1)) :
    ∀ c0, l.head? = some c0 → f c0 = false := by
  cases l with
  | nil => intro c0 hc0; cases hc0
  | cons a t =>
      intro c0 hc0
      have ha : a = c0 := by simpa using hc0
      subst ha
      by_cases hfa : f a = true
      · rw [findIndex, if_pos hfa] at h
        cases h
      · simpa using hfa

/-- Helper: `onChunkMouseDown` never modifies the chunk list. -/
theorem onChunkMouseDown_chunks (s : TimelineState) (cid : String) (b : ℕ)
    (x : ℚ) : (onChunkMouseDown s cid b x).chunks = s.chunks := by
  unfold onChunkMouseDown
  split
  · rfl
  · split
    · rfl
    · rfl
    · split
      · rfl
      · rfl

/-- An auto-scroll tick never modifies the chunk list or the drag session. -/
theorem autoScrollTick_frame (s : TimelineState) (container : Option (ℚ × ℚ)) :
    (autoScrollTick s container).chunks = s.chunks ∧
    (autoScrollTick s container).drag = s.drag := by
  rcases container with _ | ⟨l, r⟩
  · exact ⟨rfl, rfl⟩
  · cases hd : s.drag with
    | none =>
        unfold autoScrollTick
        rw [hd]
        exact ⟨rfl, hd⟩
    | some d =>
        unfold autoScrollTick
        rw [hd]
        change (ite _ _ _ : TimelineState).chunks = s.chunks ∧
          (ite _ _ _ : TimelineState).drag = some d
        by_cases h1 : r - s.mouseX < EDGE_THRESHOLD ∧ 0 < r - s.mouseX
        · rw [if_pos h1]
          exact ⟨rfl, rfl⟩
        · rw [if_neg h1]
          by_cases h2 : s.mouseX - l < EDGE_THRESHOLD ∧ 0 < s.mouseX - l
          · rw [if_pos h2]
            exact ⟨rfl, rfl⟩
          · rw [if_neg h2]
            exact ⟨rfl, hd⟩

/-- Pointer-down preserves the first-gap invariant. -/
theorem mouseDown_preserves_inv (s : TimelineState) (cid : String) (b : ℕ)
    (x : ℚ) (h : FirstGapInv s) : FirstGapInv (onChunkMouseDown s cid b x) := by
  rcases h with ⟨hgap, hdrg⟩
  unfold onChunkMouseDown
  split
  · exact ⟨hgap, hdrg⟩
  · cases hfi : findIndex (fun c => c.id = cid) s.chunks with
    | none => exact ⟨hgap, hdrg⟩
    | some i =>
        cases i with
        | zero => exact ⟨hgap, hdrg⟩
        | succ j =>
            dsimp only
            cases hget : s.chunks.get? (j + 1) with
            | none => exact ⟨hgap, hdrg⟩
            | some chunk =>
                refine ⟨hgap, ?_⟩
                intro d hd c0 hc0
                have hd2 : d = ⟨cid, x, chunk.gapBefore⟩ := by
                  simpa using hd.symm
                have hf0 := findIndex_succ_head hfi c0 hc0
                intro hideq
                rw [hd2] at hideq
                simp only [DragState.mk.injEq] at hideq
                simp [hideq] at hf0

/-- Pointer-move preserves the first-gap invariant: with a session active,
the head chunk's id differs from the session's, so the gap rewrite leaves the
head chunk untouched. -/
theorem mouseMove_preserves_inv (s : TimelineState) (x : ℚ)
    (h : FirstGapInv s) : FirstGapInv (handleMouseMove s x) := by
  rcases h with ⟨hgap, hdrg⟩
  cases hd : s.drag with
  | none =>
      unfold handleMouseMove
      rw [hd]
      exact ⟨hgap, hdrg⟩
  | some d =>
      have hmap : (handleMouseMove s x).chunks = s.chunks.map (fun c =>
          if c.id = d.chunkId
          then { c with gapBefore := max 0 (d.initialGapBefore + (x - d.startMouseX)) }
          else c) := by
        unfold handleMouseMove
        rw [hd]
      have hhead : ∀ c0, (handleMouseMove s x).chunks.head? = some c0 →
          s.chunks.head? = some c0 := by
        intro c0 hc0
        rw [hmap, List.head?_map] at hc0
        cases hh : s.chunks.head? with
        | none => rw [hh] at hc0; cases hc0
        | some c1 =>
            rw [hh] at hc0
            have hne : c1.id ≠ d.chunkId := hdrg d hd c1 hh
            rw [Option.map_some', if_neg hne] at hc0
            exact hc0
      have hdrag2 : (handleMouseMove s x).drag = some d := by
        unfold handleMouseMove
        rw [hd]
      refine ⟨?_, ?_⟩
      · intro c0 hc0
        exact hgap c0 (hhead c0 hc0)
      · intro d2 hd2 c0 hc0
        rw [hdrag2] at hd2
        cases hd2
        exact hdrg d hd c0 (hhead c0 hc0)

/-- Pointer-up preserves the first-gap invariant. -/
theorem mouseUp_preserves_inv (s : TimelineState) (h : FirstGapInv s) :
    FirstGapInv (handleMouseUp s) := by
  rcases h with ⟨hgap, _⟩
  refine ⟨hgap, ?_⟩
  intro d hd
  cases hd

/-- Auto-scroll ticks preserve the first-gap invariant. -/
theorem tick_preserves_inv (s : TimelineState) (container : Option (ℚ × ℚ))
    (h : FirstGapInv s) : FirstGapInv (autoScrollTick s container) := by
  rcases autoScrollTick_frame s container with ⟨hc, hd⟩
  rcases h with ⟨h1, h2⟩
  constructor
  · intro c0 hc0
    exact h1 c0 (by rwa [hc] at hc0)
  · intro d hdd c0 hc0
    exact h2 d (by rwa [hd] at hdd) c0 (by rwa [hc] at hc0)

/-- Both load outcomes publish a chunk list whose head carries gap 0, and the
initial state holds no drag session, so the invariant holds initially. -/
theorem init_inv (f : String → Except String ℚ) (chunks : List AudioChunkData)
    (h : (runLoadEffect f false).chunksSet = some chunks) :
    FirstGapInv (initState chunks) := by
  refine ⟨?_, ?_⟩
  · intro c0 hc0
    unfold runLoadEffect at h
    cases hload : loadDurations f DEMO_CHUNKS with
    | ok out =>
        rw [hload] at h
        have hout : out = chunks := by simpa using h
        subst hout
        have hall := loadDurations_ok_forall₂ f DEMO_CHUNKS out hload
        unfold DEMO_CHUNKS at hall
        cases hall with
        | cons hr ht =>
            rcases hr with ⟨d, _, rfl⟩
            have hwd : withDuration ⟨"a", "Arrow", "/base/sounds/arrow.mp3", 0⟩ d
                = c0 := by
              simpa [initState] using hc0
            rw [← hwd]
            rfl
    | error e =>
        rw [hload] at h
        have hfall : DEMO_CHUNKS.map (fun c => withDuration c 5) = chunks := by
          simpa using h
        subst hfall
        have hwd : withDuration ⟨"a", "Arrow", "/base/sounds/arrow.mp3", 0⟩ 5
            = c0 := by
          simpa [initState, DEMO_CHUNKS] using hc0
        rw [← hwd]
        rfl
  · intro d hd
    cases hd

/-- Every reachable state satisfies the first-gap invariant. -/
theorem reachable_inv (s : TimelineState) (h : Reachable s) : FirstGapInv s := by
  induction h with
  | init f chunks hset => exact init_inv f chunks hset
  | step s2 e _ ih =>
      cases e with
      | mouseDown cid b x => exact mouseDown_preserves_inv s2 cid b x ih
      | mouseMove x => exact mouseMove_preserves_inv s2 x ih
      | mouseUp => exact mouseUp_preserves_inv s2 ih
      | tick container => exact tick_preserves_inv s2 container ih

/-- Claim C5: In every reachable state of the timeline — starting from either
load outcome and following any sequence of pointer-down, pointer-move,
pointer-up and auto-scroll events — the first chunk's `gapBefore` is 0:
chunks are created with gap 0, a drag can only start on an id the first
chunk does not carry, and pointer-moves rewrite only the dragged id's gap. -/
theorem first_chunk_gap_always_zero (s : TimelineState) (h : Reachable s)
    (c0 : AudioChunkData) (h0 : s.chunks.head? = some c0) : c0.gapBefore = 0 :=
  (reachable_inv s h).1 c0 h0

/-- Witness for C5: The invariant read off at the concrete initial state of
the fallback load outcome. -/
theorem first_chunk_gap_always_zero_witness :
    (withDuration ⟨"a", "Arrow", "/base/sounds/arrow.mp3", 0⟩ 5).gapBefore = 0 :=
  first_chunk_gap_always_zero (initState fallbackChunks)
    (Reachable.init (fun _ => Except.error "offline") fallbackChunks rfl)
    _ rfl

end AudioEditor
